import Mathlib

/-!
Shallow embedding of the reusable core of the express-jobly repository:
the partial-update SQL clause builder `sqlForPartialUpdate` from
helpers/sql.js and the authentication/authorization middleware
(`authenticateJWT`, `ensureAdmin`, `ensureCorrectUserOrAdmin`) from
middleware/auth.js, together with theorems settling the specification
claims about them.

JavaScript objects iterate string keys in insertion order, so the update
mapping `dataToUpdate` and the translation table `jsToSql` are embedded as
association lists; update values are polymorphic in `V` (JSON scalars in
the program).  JWT verification and the HTTP layer are external
collaborators and enter the embedding as function parameters.
-/

/-- Error classes of the expressError module (declared outside the helper
sources), modelled as plain tags.  `BadRequestError` carries the message
the helper supplies; `UnauthorizedError` is thrown by the authorization
middleware with its default message. -/
inductive ExpressError where
  | BadRequestError (msg : String)
  | UnauthorizedError
  deriving DecidableEq, Repr

/-- Column-name resolution used by sqlForPartialUpdate, the expression
`jsToSql[colName] || colName` in the source: a mapped name that is absent
is `undefined` (falsy), and a mapped name that is the empty string is also
falsy in JavaScript, so both fall back to the original key. -/
def resolveName (jsToSql : List (String × String)) (colName : String) : String :=
  match jsToSql.lookup colName with
  | some v => if v = "" then colName else v
  | none => colName

/-- Fragment list built inside sqlForPartialUpdate, the source expression
`keys.map((colName, idx) => ...)` producing one string
`"<resolved name>"=$<idx+1>` per key. -/
def sqlCols (keys : List String) (jsToSql : List (String × String)) : List String :=
  keys.enum.map (fun p => "\"" ++ resolveName jsToSql p.2 ++ "\"=$" ++ toString (p.1 + 1))

/-- Return shape of sqlForPartialUpdate: the joined SET clause and the
ordered value list. -/
structure SqlUpdateResult (V : Type) where
  setCols : String
  values : List V
  deriving DecidableEq, Repr

/-- sqlForPartialUpdate(dataToUpdate, jsToSql) from helpers/sql.js.
Extracts the keys, throws BadRequestError("No data") when there are none,
otherwise joins the column fragments with `, ` and returns the values of
`dataToUpdate` in the same order. -/
def sqlForPartialUpdate {V : Type} (dataToUpdate : List (String × V))
    (jsToSql : List (String × String)) : Except ExpressError (SqlUpdateResult V) :=
  let keys := dataToUpdate.map Prod.fst
  if keys.length = 0 then
    Except.error (ExpressError.BadRequestError "No data")
  else
    Except.ok { setCols := String.intercalate ", " (sqlCols keys jsToSql),
                values := dataToUpdate.map Prod.snd }

/-- Fragment sequence written the way the specification states it: one
fragment `"<resolved name>"=$<i>` per key, `i` being the key's 1-based
position, for an arbitrary name-resolution function. -/
def specFragments (resolve : String → String) (keys : List String) (i : Nat) : List String :=
  match keys with
  | [] => []
  | k :: ks => ("\"" ++ resolve k ++ "\"=$" ++ toString i) :: specFragments resolve ks (i + 1)

/-- Name resolution as claim C1 states it: `nameMap[key]` whenever the key
is present in the table, the key itself only when it is absent.  This is
membership-based fallback, to be compared with the truthiness-based
`resolveName` of the source. -/
def resolveNameByMembership (nameMap : List (String × String)) (key : String) : String :=
  match nameMap.lookup key with
  | some v => v
  | none => key

/-- Token payload stored on res.locals.user by the middleware: the
username and isAdmin claims of the decoded token. -/
structure UserPayload where
  username : String
  isAdmin : Bool
  deriving DecidableEq, Repr

/-- Outcome of one middleware call: `next()` or `next(err)`. -/
inductive MwOutcome where
  | next
  | nextErr (e : ExpressError)
  deriving DecidableEq, Repr

/-- JavaScript String.prototype.trim whitespace test, restricted to the
ASCII whitespace characters that can occur in an HTTP header value. -/
def isJsSpace (c : Char) : Bool :=
  c = ' ' || c = '\t' || c = '\n' || c = '\r' || c = '\x0b' || c = '\x0c'

/-- JavaScript String.prototype.trim: drop leading and trailing
whitespace.  Header strings are embedded as their character lists. -/
def jsTrim (s : List Char) : List Char :=
  ((s.dropWhile isJsSpace).reverse.dropWhile isJsSpace).reverse

/-- Token extraction in authenticateJWT, the source expression
`authHeader.replace(/^[Bb]earer /, "").trim()`: the anchored non-global
regex removes at most one leading `Bearer ` or `bearer ` prefix (only the
first letter's case may vary), then the result is trimmed. -/
def stripBearer (authHeader : List Char) : List Char :=
  let stripped :=
    if List.isPrefixOf "Bearer ".data authHeader then authHeader.drop 7
    else if List.isPrefixOf "bearer ".data authHeader then authHeader.drop 7
    else authHeader
  jsTrim stripped

/-- authenticateJWT from middleware/auth.js.  `verify` stands for the
external jwt.verify collaborator, returning the decoded payload or `none`
when verification throws for any reason (malformed token, bad signature,
expired); the function's try/catch turns any throw into a plain `next()`,
leaving res.locals.user untouched.  Returns the new res.locals.user
together with the call outcome. -/
def authenticateJWT (verify : List Char → Option UserPayload)
    (authHeader : Option (List Char)) (localsUser : Option UserPayload) :
    Option UserPayload × MwOutcome :=
  match authHeader with
  | none => (localsUser, MwOutcome.next)
  | some h =>
    match verify (stripBearer h) with
    | some payload => (some payload, MwOutcome.next)
    | none => (localsUser, MwOutcome.next)

/-- ensureAdmin from middleware/auth.js: throws UnauthorizedError (passed
to `next`) unless res.locals.user is present with isAdmin set. -/
def ensureAdmin (localsUser : Option UserPayload) : MwOutcome :=
  match localsUser with
  | some u =>
    if u.isAdmin then MwOutcome.next
    else MwOutcome.nextErr ExpressError.UnauthorizedError
  | none => MwOutcome.nextErr ExpressError.UnauthorizedError

/-- ensureCorrectUserOrAdmin from middleware/auth.js: the guard
`!(user && (user.isAdmin || user.username === req.params.username))`.
Route parameters are an association list; a missing `username` parameter
is `undefined` in the source and never equal to the payload's username
string. -/
def ensureCorrectUserOrAdmin (localsUser : Option UserPayload)
    (params : List (String × String)) : MwOutcome :=
  match localsUser with
  | none => MwOutcome.nextErr ExpressError.UnauthorizedError
  | some user =>
    if user.isAdmin || (List.lookup "username" params == some user.username) then
      MwOutcome.next
    else
      MwOutcome.nextErr ExpressError.UnauthorizedError

theorem enumFrom_map_frag (m : List (String × String)) (keys : List String) :
    ∀ n : Nat,
      (List.enumFrom n keys).map
          (fun p => "\"" ++ resolveName m p.2 ++ "\"=$" ++ toString (p.1 + 1))
        = specFragments (resolveName m) keys (n + 1) := by
  induction keys with
  | nil => intro n; rfl
  | cons k ks ih => intro n; simp [List.enumFrom, specFragments, ih]

theorem sqlCols_eq_specFragments (m : List (String × String)) (keys : List String) :
    sqlCols keys m = specFragments (resolveName m) keys 1 := by
  simpa [sqlCols, List.enum] using enumFrom_map_frag m keys 0

theorem specFragments_length (resolve : String → String) :
    ∀ (keys : List String) (i : Nat), (specFragments resolve keys i).length = keys.length := by
  intro keys
  induction keys with
  | nil => intro i; rfl
  | cons k ks ih => intro i; simp [specFragments, ih]

theorem specFragments_getElem (resolve : String → String) :
    ∀ (keys : List String) (j i : Nat),
      (specFragments resolve keys j)[i]? =
        keys[i]?.map (fun k => "\"" ++ resolve k ++ "\"=$" ++ toString (j + i)) := by
  intro keys
  induction keys with
  | nil => intro j i; simp [specFragments]
  | cons k ks ih =>
    intro j i
    cases i with
    | zero => simp [specFragments]
    | succ i =>
      have harith : j + 1 + i = j + (i + 1) := by omega
      simp only [specFragments, List.getElem?_cons_succ]
      rw [ih (j + 1) i, harith]

theorem sqlForPartialUpdate_ok {V : Type} (dataToUpdate : List (String × V))
    (jsToSql : List (String × String)) (hne : dataToUpdate ≠ []) :
    sqlForPartialUpdate dataToUpdate jsToSql =
      Except.ok
        { setCols := String.intercalate ", " (sqlCols (dataToUpdate.map Prod.fst) jsToSql),
          values := dataToUpdate.map Prod.snd } := by
  simp [sqlForPartialUpdate, hne]

/-- Claim C1 (corrected), counterexample to the claim as stated: with the
update mapping `{f1: "v1"}` and the translation table `{f1: ""}` — a key
that IS present in the table — the builder's output differs from the
clause the claim predicts (which would resolve the column name to the
mapped value `""`); the code instead falls back to the original key. -/
theorem sqlForPartialUpdate_membership_resolution_counterexample :
    sqlForPartialUpdate [("f1", "v1")] [("f1", "")] ≠
      Except.ok
        { setCols := String.intercalate ", "
            (specFragments (resolveNameByMembership [("f1", "")])
              (List.map Prod.fst [("f1", "v1")]) 1),
          values := List.map Prod.snd [("f1", "v1")] } := by
  intro h
  have hs := congrArg
    (fun e => match e with
      | Except.ok r => SqlUpdateResult.setCols r
      | Except.error _ => "") h
  exact absurd hs (by decide)

/-- Claim C1 (amended): for every non-empty update mapping and every
translation table, build returns the `, `-joined sequence of fragments
`"<resolved name>"=$<i>`, one per key in iteration order, `i` the 1-based
position, where the resolved name is `nameMap[key]` when the key is
present with a truthy (non-empty) mapped name and the key itself
otherwise (absent, or mapped to a falsy name); the values sequence holds
the update values in the same order. -/
theorem sqlForPartialUpdate_clause_shape {V : Type} (dataToUpdate : List (String × V))
    (jsToSql : List (String × String)) (hne : dataToUpdate ≠ []) :
    sqlForPartialUpdate dataToUpdate jsToSql =
      Except.ok
        { setCols := String.intercalate ", "
            (specFragments (resolveName jsToSql) (dataToUpdate.map Prod.fst) 1),
          values := dataToUpdate.map Prod.snd } := by
  rw [sqlForPartialUpdate_ok dataToUpdate jsToSql hne, sqlCols_eq_specFragments]

/-- Witness for the amended claim C1 at the spec's own example input:
build({f1:"v1", jsF2:"v2"}, {jsF2:"f2"}). -/
theorem sqlForPartialUpdate_clause_shape_witness :
    sqlForPartialUpdate [("f1", "v1"), ("jsF2", "v2")] [("jsF2", "f2")] =
      Except.ok
        { setCols := String.intercalate ", "
            (specFragments (resolveName [("jsF2", "f2")])
              (List.map Prod.fst [("f1", "v1"), ("jsF2", "v2")]) 1),
          values := List.map Prod.snd [("f1", "v1"), ("jsF2", "v2")] } :=
  sqlForPartialUpdate_clause_shape [("f1", "v1"), ("jsF2", "v2")] [("jsF2", "f2")] (by decide)

/-- Claim C2: for every non-empty update mapping and translation table the
build succeeds with a clause that is the `, `-join of the fragment list,
the fragment list, the values sequence and the key sequence all have the
same length, and fragment `i` is built from the same key whose value sits
at position `i` of the values sequence. -/
theorem sqlForPartialUpdate_fragment_value_invariant {V : Type}
    (dataToUpdate : List (String × V)) (jsToSql : List (String × String))
    (hne : dataToUpdate ≠ []) :
    ∃ r : SqlUpdateResult V,
      sqlForPartialUpdate dataToUpdate jsToSql = Except.ok r ∧
      r.setCols = String.intercalate ", " (sqlCols (dataToUpdate.map Prod.fst) jsToSql) ∧
      (sqlCols (dataToUpdate.map Prod.fst) jsToSql).length = r.values.length ∧
      r.values.length = dataToUpdate.length ∧
      (∀ (i : Nat) (k : String) (v : V), dataToUpdate[i]? = some (k, v) →
        (sqlCols (dataToUpdate.map Prod.fst) jsToSql)[i]?
            = some ("\"" ++ resolveName jsToSql k ++ "\"=$" ++ toString (i + 1)) ∧
        r.values[i]? = some v) := by
  refine ⟨_, sqlForPartialUpdate_ok dataToUpdate jsToSql hne, rfl, ?_, ?_, ?_⟩
  · simp [sqlCols_eq_specFragments, specFragments_length]
  · simp
  · intro i k v hiv
    constructor
    · have hk : (dataToUpdate.map Prod.fst)[i]? = some k := by
        rw [List.getElem?_map, hiv]; rfl
      rw [sqlCols_eq_specFragments, specFragments_getElem, hk]
      simp [Nat.add_comm]
    · show (dataToUpdate.map Prod.snd)[i]? = some v
      rw [List.getElem?_map, hiv]; rfl

/-- Witness for claim C2 at build({f1:"v1", jsF2:"v2"}, {jsF2:"f2"}). -/
theorem sqlForPartialUpdate_fragment_value_invariant_witness :
    ∃ r : SqlUpdateResult String,
      sqlForPartialUpdate [("f1", "v1"), ("jsF2", "v2")] [("jsF2", "f2")] = Except.ok r ∧
      r.setCols = String.intercalate ", "
          (sqlCols (List.map Prod.fst [("f1", "v1"), ("jsF2", "v2")]) [("jsF2", "f2")]) ∧
      (sqlCols (List.map Prod.fst [("f1", "v1"), ("jsF2", "v2")]) [("jsF2", "f2")]).length
          = r.values.length ∧
      r.values.length = ([("f1", "v1"), ("jsF2", "v2")] : List (String × String)).length ∧
      (∀ (i : Nat) (k v : String),
        (([("f1", "v1"), ("jsF2", "v2")] : List (String × String)))[i]? = some (k, v) →
        (sqlCols (List.map Prod.fst [("f1", "v1"), ("jsF2", "v2")]) [("jsF2", "f2")])[i]?
            = some ("\"" ++ resolveName [("jsF2", "f2")] k ++ "\"=$" ++ toString (i + 1)) ∧
        r.values[i]? = some v) :=
  sqlForPartialUpdate_fragment_value_invariant [("f1", "v1"), ("jsF2", "v2")]
    [("jsF2", "f2")] (by decide)

/-- Claim C3: build applied to an empty update mapping fails with the
empty-update error (BadRequestError "No data" in the source, the spec's
EmptyUpdateError) for every translation table and every value type,
producing no clause or value output. -/
theorem sqlForPartialUpdate_empty_rejected (V : Type) (jsToSql : List (String × String)) :
    sqlForPartialUpdate ([] : List (String × V)) jsToSql
      = Except.error (ExpressError.BadRequestError "No data") := rfl

/-- Claim C6: the clause depends only on the key sequence and the
translation table, never on the update values — two update mappings with
the same keys but arbitrary values, even of different types, yield the
identical clause string — and each values sequence is the input values
verbatim. -/
theorem sqlForPartialUpdate_clause_key_determined {V₁ V₂ : Type}
    (d₁ : List (String × V₁)) (d₂ : List (String × V₂))
    (jsToSql : List (String × String))
    (hk : d₁.map Prod.fst = d₂.map Prod.fst) (hne : d₁ ≠ []) :
    ∃ (r₁ : SqlUpdateResult V₁) (r₂ : SqlUpdateResult V₂),
      sqlForPartialUpdate d₁ jsToSql = Except.ok r₁ ∧
      sqlForPartialUpdate d₂ jsToSql = Except.ok r₂ ∧
      r₁.setCols = r₂.setCols ∧
      r₁.setCols = String.intercalate ", " (sqlCols (d₁.map Prod.fst) jsToSql) ∧
      r₁.values = d₁.map Prod.snd ∧
      r₂.values = d₂.map Prod.snd := by
  have hne₂ : d₂ ≠ [] := by
    intro h
    apply hne
    rw [h] at hk
    simpa using hk
  refine ⟨_, _, sqlForPartialUpdate_ok d₁ jsToSql hne,
    sqlForPartialUpdate_ok d₂ jsToSql hne₂, ?_, rfl, rfl, rfl⟩
  simp [hk]

/-- Witness for claim C6: same single key `f1`, a string value on one side
and a number on the other. -/
theorem sqlForPartialUpdate_clause_key_determined_witness :
    ∃ (r₁ : SqlUpdateResult String) (r₂ : SqlUpdateResult Nat),
      sqlForPartialUpdate [("f1", "v1")] [] = Except.ok r₁ ∧
      sqlForPartialUpdate [("f1", (42 : Nat))] [] = Except.ok r₂ ∧
      r₁.setCols = r₂.setCols ∧
      r₁.setCols = String.intercalate ", "
          (sqlCols (List.map Prod.fst [("f1", "v1")]) []) ∧
      r₁.values = List.map Prod.snd [("f1", "v1")] ∧
      r₂.values = List.map Prod.snd [("f1", (42 : Nat))] :=
  sqlForPartialUpdate_clause_key_determined [("f1", "v1")] [("f1", (42 : Nat))] []
    rfl (by decide)

/-- Claim C9: a key present in the translation table but mapped to a falsy
name (the empty string) resolves to the original key, exactly as if the
key were absent from the table — the fallback is decided by truthiness of
the looked-up value, not by key membership — and build output agrees with
the empty-table output on such a key. -/
theorem resolveName_falsy_mapping_fallback (jsToSql : List (String × String))
    (k : String) (hfalsy : jsToSql.lookup k = some "") :
    resolveName jsToSql k = k ∧
    (∀ m : List (String × String), m.lookup k = none →
      resolveName m k = resolveName jsToSql k) ∧
    (∀ (V : Type) (v : V),
      sqlForPartialUpdate [(k, v)] jsToSql
        = sqlForPartialUpdate [(k, v)] ([] : List (String × String))) := by
  have h1 : resolveName jsToSql k = k := by simp [resolveName, hfalsy]
  refine ⟨h1, ?_, ?_⟩
  · intro m hm
    simp [resolveName, hm, hfalsy]
  · intro V v
    have h2 : resolveName ([] : List (String × String)) k = k := rfl
    simp [sqlForPartialUpdate, sqlCols, List.enum, List.enumFrom, h1, h2]

/-- Witness for claim C9 at the table {f1: ""} and key f1. -/
theorem resolveName_falsy_mapping_fallback_witness :
    resolveName [("f1", "")] "f1" = "f1" ∧
    (∀ m : List (String × String), m.lookup "f1" = none →
      resolveName m "f1" = resolveName [("f1", "")] "f1") ∧
    (∀ (V : Type) (v : V),
      sqlForPartialUpdate [("f1", v)] [("f1", "")]
        = sqlForPartialUpdate [("f1", v)] ([] : List (String × String))) :=
  resolveName_falsy_mapping_fallback [("f1", "")] "f1" (by decide)

/-- Claim C4: the self-or-privileged gate lets the request proceed if and
only if the identity context is present and either its privileged
(isAdmin) flag is set or its subject (username) equals the `username`
route parameter; with the identity absent it signals UnauthorizedError
regardless of the route parameters. -/
theorem ensureCorrectUserOrAdmin_decision (localsUser : Option UserPayload)
    (params : List (String × String)) :
    (ensureCorrectUserOrAdmin localsUser params = MwOutcome.next ↔
      ∃ u : UserPayload, localsUser = some u ∧
        (u.isAdmin = true ∨ List.lookup "username" params = some u.username)) ∧
    ensureCorrectUserOrAdmin none params
      = MwOutcome.nextErr ExpressError.UnauthorizedError := by
  refine ⟨?_, rfl⟩
  cases localsUser with
  | none => simp [ensureCorrectUserOrAdmin]
  | some u =>
    cases hc : (u.isAdmin || (List.lookup "username" params == some u.username)) with
    | true =>
      simp only [Bool.or_eq_true, beq_iff_eq] at hc
      simp [ensureCorrectUserOrAdmin, hc]
    | false =>
      simp only [Bool.or_eq_false_iff, beq_eq_false_iff_ne] at hc
      simp [ensureCorrectUserOrAdmin, hc.1, hc.2]

/-- Claim C5: identity resolution never aborts the request — for every
verifier, header and starting context the outcome is a plain next() — an
absent credential or a failed verification leaves the identity context
empty, and a successful verification stores exactly the decoded claims. -/
theorem authenticateJWT_total_resolution (verify : List Char → Option UserPayload)
    (h : List Char) :
    (∀ (authHeader : Option (List Char)) (localsUser : Option UserPayload),
      (authenticateJWT verify authHeader localsUser).2 = MwOutcome.next) ∧
    authenticateJWT verify none none = (none, MwOutcome.next) ∧
    (verify (stripBearer h) = none →
      authenticateJWT verify (some h) none = (none, MwOutcome.next)) ∧
    (∀ p : UserPayload, verify (stripBearer h) = some p →
      authenticateJWT verify (some h) none = (some p, MwOutcome.next)) := by
  refine ⟨?_, rfl, ?_, ?_⟩
  · intro authHeader localsUser
    cases authHeader with
    | none => rfl
    | some hd => cases hv : verify (stripBearer hd) <;> simp [authenticateJWT, hv]
  · intro hv
    simp [authenticateJWT, hv]
  · intro p hv
    simp [authenticateJWT, hv]

/-- Witness for claim C5: a verifier that rejects everything, applied to a
Bearer-prefixed header, yields an empty identity context and a plain
next(). -/
theorem authenticateJWT_total_resolution_witness :
    authenticateJWT (fun _ => none) (some "Bearer tok".data) none
      = (none, MwOutcome.next) :=
  (authenticateJWT_total_resolution (fun _ => none) "Bearer tok".data).2.2.1 rfl

/-- Claim C7: the privileged gate signals UnauthorizedError if and only if
it is not the case that the identity context is present with its
privileged (isAdmin) flag set, and lets the request proceed if and only if
it is. -/
theorem ensureAdmin_gate_decision (localsUser : Option UserPayload) :
    (ensureAdmin localsUser = MwOutcome.nextErr ExpressError.UnauthorizedError ↔
      ¬ ∃ u : UserPayload, localsUser = some u ∧ u.isAdmin = true) ∧
    (ensureAdmin localsUser = MwOutcome.next ↔
      ∃ u : UserPayload, localsUser = some u ∧ u.isAdmin = true) := by
  cases localsUser with
  | none => simp [ensureAdmin]
  | some u => cases hA : u.isAdmin <;> simp [ensureAdmin, hA]

/-- Claim C8: with the identity context absent the self-or-privileged gate
is total and signals UnauthorizedError for every route-parameter list,
including the empty one; its result never depends on the parameters, so
the `routeParams` access is not needed in the absent-identity case. -/
theorem ensureCorrectUserOrAdmin_absent_identity
    (params params' : List (String × String)) :
    ensureCorrectUserOrAdmin none params
        = MwOutcome.nextErr ExpressError.UnauthorizedError ∧
    ensureCorrectUserOrAdmin none []
        = MwOutcome.nextErr ExpressError.UnauthorizedError ∧
    ensureCorrectUserOrAdmin none params = ensureCorrectUserOrAdmin none params' :=
  ⟨rfl, rfl, rfl⟩

/-- Claim C10: before verification the header is stripped of at most one
leading `Bearer ` or `bearer ` prefix — an upper-case `BEARER ` is left
alone, and only the first occurrence is removed — and the result is
trimmed of surrounding whitespace, so a raw token with no prefix is
handed to the verifier identically to a Bearer-prefixed one. -/
theorem stripBearer_bearer_handling (t : List Char) :
    stripBearer ("Bearer ".data ++ t) = jsTrim t ∧
    stripBearer ("bearer ".data ++ t) = jsTrim t ∧
    (List.isPrefixOf "Bearer ".data t = false →
      List.isPrefixOf "bearer ".data t = false →
      stripBearer t = jsTrim t ∧
      stripBearer ("Bearer ".data ++ t) = stripBearer t) ∧
    stripBearer "BEARER abc".data = "BEARER abc".data ∧
    stripBearer "Bearer Bearer abc".data = "Bearer abc".data := by
  have hpB : List.isPrefixOf "Bearer ".data ("Bearer ".data ++ t) = true := by
    simp [ List.isPrefixOf_iff_prefix]
  have hpb : List.isPrefixOf "bearer ".data ("bearer ".data ++ t) = true := by
    simp [ List.isPrefixOf_iff_prefix]
  have hcross : List.isPrefixOf "Bearer ".data ("bearer ".data ++ t) = false := by
    simp [List.isPrefixOf]
  have hdB : ("Bearer ".data ++ t).drop 7 = t := by
    simpa using List.drop_left "Bearer ".data t
  have hdb : ("bearer ".data ++ t).drop 7 = t := by
    simpa using List.drop_left "bearer ".data t
  have h1 : stripBearer ("Bearer ".data ++ t) = jsTrim t := by
    simp [stripBearer, hpB, hdB]
  refine ⟨h1, ?_, ?_, by decide, by decide⟩
  · simp [stripBearer, hcross, hpb, hdb]
  · intro hn1 hn2
    have h2 : stripBearer t = jsTrim t := by
      simp [stripBearer, hn1, hn2]
    exact ⟨h2, by rw [h1, h2]⟩

/-- Witness for claim C10 at the prefix-free token `abc`. -/
theorem stripBearer_bearer_handling_witness :
    stripBearer "abc".data = jsTrim "abc".data ∧
    stripBearer ("Bearer ".data ++ "abc".data) = stripBearer "abc".data :=
  (stripBearer_bearer_handling "abc".data).2.2.1 (by decide) (by decide)
